import Mathlib

/-!
Shallow embedding of the news-feed core of this repository:
candidate-retrieval SQL views, the quota-balanced candidate view, the
cold-start selector, the impression ledger and interaction recorder of
the feed router, and the training-dataset SQL views.

SQL `ORDER BY` with a deterministic tie-break is embedded as an
insertion sort over a boolean total preorder; `ROW_NUMBER() OVER
(PARTITION BY p ORDER BY o)` followed by a `rn <= k` filter is embedded
as per-partition sort-and-take, or as a rank-by-counting where the view
uses the rank value itself.  Where the SQL order is not total
(ties under `ORDER BY distance ASC` alone) the embedding fixes the
engine-unspecified tie order by ascending article id.
-/

/-- Insert an element into a list sorted by the boolean relation le. -/
def insertOrd (le : α → α → Bool) (a : α) : List α → List α
  | [] => [a]
  | b :: l => if le a b then a :: b :: l else b :: insertOrd le a l

/-- Insertion sort by the boolean relation le; embeds SQL ORDER BY. -/
def insSort (le : α → α → Bool) : List α → List α
  | [] => []
  | a :: l => insertOrd le a (insSort le l)

theorem length_insertOrd (le : α → α → Bool) (a : α) (l : List α) :
    (insertOrd le a l).length = l.length + 1 := by
  induction l with
  | nil => rfl
  | cons b l ih =>
    by_cases h : le a b = true
    · rw [insertOrd, if_pos h, List.length_cons]
    · rw [insertOrd, if_neg h, List.length_cons, List.length_cons, ih]

theorem length_insSort (le : α → α → Bool) (l : List α) :
    (insSort le l).length = l.length := by
  induction l with
  | nil => rfl
  | cons a l ih => rw [insSort, length_insertOrd, ih, List.length_cons]

theorem countP_insertOrd (le : α → α → Bool) (p : α → Bool) (a : α) (l : List α) :
    (insertOrd le a l).countP p = (a :: l).countP p := by
  induction l with
  | nil => rfl
  | cons b l ih =>
    by_cases h : le a b = true
    · rw [insertOrd, if_pos h]
    · rw [insertOrd, if_neg h, List.countP_cons, List.countP_cons, ih,
        List.countP_cons, List.countP_cons]
      omega

theorem countP_insSort (le : α → α → Bool) (p : α → Bool) (l : List α) :
    (insSort le l).countP p = l.countP p := by
  induction l with
  | nil => rfl
  | cons a l ih =>
    rw [insSort, countP_insertOrd, List.countP_cons, List.countP_cons, ih]

theorem mem_insertOrd (le : α → α → Bool) (a x : α) (l : List α) :
    x ∈ insertOrd le a l ↔ x = a ∨ x ∈ l := by
  induction l with
  | nil => simp [insertOrd]
  | cons b l ih =>
    by_cases h : le a b = true
    · rw [insertOrd, if_pos h]
      simp only [List.mem_cons]
    · rw [insertOrd, if_neg h]
      simp only [List.mem_cons, ih]
      tauto

theorem mem_insSort (le : α → α → Bool) (x : α) (l : List α) :
    x ∈ insSort le l ↔ x ∈ l := by
  induction l with
  | nil => simp [insSort]
  | cons a l ih =>
    rw [insSort, mem_insertOrd, List.mem_cons, ih]

theorem pairwise_insertOrd (le : α → α → Bool)
    (htot : ∀ a b : α, le a b = true ∨ le b a = true)
    (htrans : ∀ a b c : α, le a b = true → le b c = true → le a c = true)
    (a : α) (l : List α) (h : l.Pairwise (fun x y => le x y = true)) :
    (insertOrd le a l).Pairwise (fun x y => le x y = true) := by
  induction l with
  | nil => simp [insertOrd]
  | cons b l ih =>
    rcases List.pairwise_cons.mp h with ⟨hb, hl⟩
    by_cases hab : le a b = true
    · rw [insertOrd, if_pos hab]
      refine List.pairwise_cons.mpr ⟨?_, h⟩
      intro y hy
      rcases List.mem_cons.mp hy with rfl | hy
      · exact hab
      · exact htrans a b y hab (hb y hy)
    · rw [insertOrd, if_neg hab]
      refine List.pairwise_cons.mpr ⟨?_, ih hl⟩
      intro y hy
      rcases (mem_insertOrd le a y l).mp hy with heq | hy
      · subst heq
        rcases htot y b with h1 | h1
        · exact absurd h1 hab
        · exact h1
      · exact hb y hy

theorem pairwise_insSort (le : α → α → Bool)
    (htot : ∀ a b : α, le a b = true ∨ le b a = true)
    (htrans : ∀ a b c : α, le a b = true → le b c = true → le a c = true)
    (l : List α) :
    (insSort le l).Pairwise (fun x y => le x y = true) := by
  induction l with
  | nil => simp [insSort]
  | cons a l ih => exact pairwise_insertOrd le htot htrans a _ ih

theorem countP_eq_zero_of_all {p : α → Bool} {l : List α}
    (h : ∀ x ∈ l, p x = false) : l.countP p = 0 := by
  induction l with
  | nil => rfl
  | cons b l ih =>
    rw [List.countP_cons, h b (List.mem_cons_self b l), if_neg (by simp)]
    rw [ih fun x hx => h x (List.mem_cons_of_mem b hx)]

/-- One-based enumeration starting at n; embeds ROW_NUMBER assignment
over an already-sorted partition. -/
def enum1From (n : Nat) : List α → List (α × Nat)
  | [] => []
  | a :: l => (a, n) :: enum1From (n + 1) l

theorem map_fst_enum1From (n : Nat) (l : List α) :
    (enum1From n l).map Prod.fst = l := by
  induction l generalizing n with
  | nil => rfl
  | cons a l ih => rw [enum1From, List.map_cons, ih]

theorem map_snd_enum1From (n : Nat) (l : List α) :
    (enum1From n l).map Prod.snd = List.range' n l.length := by
  induction l generalizing n with
  | nil => rfl
  | cons a l ih => rw [enum1From, List.map_cons, ih, List.length_cons, List.range']

theorem mem_enum1From (n : Nat) (l : List α) (p : α × Nat)
    (h : p ∈ enum1From n l) : p.1 ∈ l ∧ n ≤ p.2 ∧ p.2 < n + l.length := by
  induction l generalizing n with
  | nil => simp [enum1From] at h
  | cons a l ih =>
    rw [enum1From, List.mem_cons] at h
    rcases h with rfl | h
    · simp
    · rcases ih (n + 1) h with ⟨h1, h2, h3⟩
      rw [List.length_cons]
      exact ⟨List.mem_cons_of_mem a h1, by omega, by omega⟩

/-! ## Data model (tables `articles`, `users`, `impressions`, `interactions`) -/

/-- A row of the `articles` table (fields used by the embedded queries).
`published_at` and timestamps are epoch seconds as rationals. -/
structure Article where
  id : Nat
  title : String
  source : String
  category : Option String
  url : String
  published_at : Option ℚ
  embedding : Option (List ℚ)
  image_url : Option String
deriving DecidableEq

/-- A row of the `users` table. -/
structure User where
  id : Nat
  username : String
  embedding : Option (List ℚ)
deriving DecidableEq

/-- A row of the `impressions` table.  `request_id` (a UUID in the
source) is modelled as a string; the BIGSERIAL `id` is not used by any
embedded query and is fixed to 0 on insert. -/
structure Impression where
  id : Nat
  user_id : Nat
  article_id : Nat
  shown_at : ℚ
  rank_position : Nat
  request_id : String
  model_version : String
deriving DecidableEq

/-- A row of the `interactions` table. -/
structure Interaction where
  id : Nat
  user_id : Nat
  article_id : Nat
  request_id : Option String
  interaction_type : String
  interaction_time : ℚ
  dwell_ms : Option Nat
deriving DecidableEq

/-- Database state.  `dist` is the pgvector `<=>` cosine-distance
operator, an external capability of the embedding store. -/
structure DB where
  articles : List Article
  users : List User
  impressions : List Impression
  interactions : List Interaction
  dist : List ℚ → List ℚ → ℚ

/-- Seconds in the 7-day recency window (`INTERVAL 7 days`). -/
def sevenDays : ℚ := 7 * 86400

/-- The `NOT EXISTS (SELECT 1 FROM interactions i WHERE i.user_id = u.id
AND i.article_id = a.id)` subquery shared by both candidate views. -/
def hasInteraction (db : DB) (uid aid : Nat) : Bool :=
  db.interactions.any fun i => i.user_id == uid && i.article_id == aid

/-! ## View `user_semantic_candidates_balanced`
(src/db_files/sql/user_semantic_candidates_balanced_view.sql, second
CREATE VIEW: forced-source carve-out composed with category quotas). -/

/-- A row of CTE `base` of the balanced view, for one user. -/
structure BalRow where
  user_id : Nat
  username : String
  article_id : Nat
  title : String
  source : String
  url : String
  category : Option String
  published_at : ℚ
  distance : ℚ
deriving DecidableEq

/-- CTE `base`: articles with a non-null embedding, published in the
last 7 days, with no interaction by the user.  A missing user embedding
is passed to `dist` as the empty vector (the SQL computes a NULL
distance in that degenerate case; no claim depends on its value). -/
def balBase (db : DB) (now : ℚ) (u : User) : List BalRow :=
  db.articles.filterMap fun a =>
    match a.embedding, a.published_at with
    | some ae, some t =>
      if now - sevenDays ≤ t ∧ ¬ hasInteraction db u.id a.id = true then
        some { user_id := u.id, username := u.username, article_id := a.id,
               title := a.title, source := a.source, url := a.url,
               category := a.category, published_at := t,
               distance := db.dist ae (u.embedding.getD []) }
      else none
    | _, _ => none

/-- Embeds `ORDER BY b.distance ASC, b.published_at DESC, b.article_id ASC`. -/
def balLE (r s : BalRow) : Bool :=
  decide (r.distance < s.distance ∨
    (r.distance = s.distance ∧
      (s.published_at < r.published_at ∨
        (r.published_at = s.published_at ∧ r.article_id ≤ s.article_id))))

/-- The forced-source allowlist of the view. -/
def forcedSources : List String := ["bbc.com", "bleacherreport.com", "goal.com"]

/-- CTE `forced_ranked` restricted by `rn_forced <= 10` (`forced_picked`). -/
def forced_picked (db : DB) (now : ℚ) (u : User) : List BalRow :=
  (insSort balLE ((balBase db now u).filter
    fun r => forcedSources.contains r.source)).take 10

/-- Input of `ranked_per_category`: base rows outside the forced sources. -/
def balNonForced (db : DB) (now : ℚ) (u : User) : List BalRow :=
  (balBase db now u).filter fun r => !(forcedSources.contains r.source)

/-- Top-`cap` rows of one category partition of `ranked_per_category`
(`rn_category <= cap` for that category). -/
def catTop (l : List BalRow) (c : String) (cap : Nat) : List BalRow :=
  (insSort balLE (l.filter fun r => r.category == some c)).take cap

/-- CTE `quota_applied`: `(category = Πολιτική AND rn_category <= 45) OR
(category = Οικονομία AND rn_category <= 30) OR (category = Αθλητικά
AND rn_category <= 20) OR (category = Gaming AND rn_category <= 5)`. -/
def quota_applied (db : DB) (now : ℚ) (u : User) : List BalRow :=
  catTop (balNonForced db now u) "Πολιτική" 45 ++
  catTop (balNonForced db now u) "Οικονομία" 30 ++
  catTop (balNonForced db now u) "Αθλητικά" 20 ++
  catTop (balNonForced db now u) "Gaming" 5

/-- CTE `ranked_main` restricted by `rn_main <= 90` (`main_picked`). -/
def main_picked (db : DB) (now : ℚ) (u : User) : List BalRow :=
  (insSort balLE (quota_applied db now u)).take 90

/-- CTE `combined`: the main pool with `rn_user := rn_main`, then the forced
slice with `rn_user := 90 + rn_forced`, ordered by `rn_user`. -/
def balCombined (db : DB) (now : ℚ) (u : User) : List (BalRow × Nat) :=
  enum1From 1 (main_picked db now u) ++
  (enum1From 1 (forced_picked db now u)).map fun p => (p.1, 90 + p.2)

/-- Final select of the view: `SELECT * FROM combined WHERE rn_user <= 100 ORDER
BY user_id, rn_user`, for the slice of one user id. -/
def user_semantic_candidates_balanced (db : DB) (now : ℚ) (uid : Nat) :
    List (BalRow × Nat) :=
  match db.users.find? (fun v => v.id == uid) with
  | none => []
  | some u => (balCombined db now u).filter fun p => p.2 ≤ 100

/-! ## View `final_user_candidate_list` (src/unnamed/part_000) -/

/-- A row of CTE `per_user` of `final_user_candidate_list` for one user. -/
structure CandRow where
  article_id : Nat
  title : String
  source : String
  category : Option String
  url : String
  published_at : ℚ
  distance : ℚ
  age_seconds : ℚ
deriving DecidableEq

/-- Filters of the lateral subquery: `u.embedding IS NOT NULL`,
`a.embedding IS NOT NULL`, `a.published_at >= NOW() - INTERVAL 7 days`,
and no interaction of this user with the article. -/
def candFiltered (db : DB) (now : ℚ) (u : User) : List CandRow :=
  match u.embedding with
  | none => []
  | some ue =>
    db.articles.filterMap fun a =>
      match a.embedding, a.published_at with
      | some ae, some t =>
        if now - sevenDays ≤ t ∧ ¬ hasInteraction db u.id a.id = true then
          some { article_id := a.id, title := a.title, source := a.source,
                 category := a.category, url := a.url, published_at := t,
                 distance := db.dist ae ue, age_seconds := now - t }
        else none
      | _, _ => none

/-- Embeds `ORDER BY distance ASC` (engine tie order fixed by article id). -/
def distLE (r s : CandRow) : Bool :=
  decide (r.distance < s.distance ∨
    (r.distance = s.distance ∧ r.article_id ≤ s.article_id))

/-- Strict version of the distance order, for ROW_NUMBER counting. -/
def distLT (r s : CandRow) : Bool :=
  decide (r.distance < s.distance ∨
    (r.distance = s.distance ∧ r.article_id < s.article_id))

/-- Embeds `ORDER BY published_at DESC` (strict, tie fixed by article id). -/
def recLT (r s : CandRow) : Bool :=
  decide (s.published_at < r.published_at ∨
    (r.published_at = s.published_at ∧ r.article_id < s.article_id))

/-- CTE `per_user`: the lateral subquery clause `ORDER BY distance ASC
LIMIT 1200`. -/
def per_user (db : DB) (now : ℚ) (u : User) : List CandRow :=
  (insSort distLE (candFiltered db now u)).take 1200

/-- Rank `ROW_NUMBER()` of `r` within partition `l` under strict order `lt`:
one more than the number of partition rows strictly before `r`. -/
def rnOf (l : List CandRow) (lt : CandRow → CandRow → Bool) (r : CandRow) : Nat :=
  1 + (l.filter fun s => lt s r).length

/-- Rank `rn_source`: ROW_NUMBER over the (user, source) partition. -/
def rn_source (pu : List CandRow) (r : CandRow) : Nat :=
  rnOf (pu.filter fun s => s.source == r.source) distLT r

/-- Rank `rn_category`: ROW_NUMBER over the (user, category) partition. -/
def rn_category (pu : List CandRow) (r : CandRow) : Nat :=
  rnOf (pu.filter fun s => s.category == r.category) distLT r

/-- Rank `rank_by_distance`: ROW_NUMBER over the whole user partition. -/
def rank_by_distance (pu : List CandRow) (r : CandRow) : Nat := rnOf pu distLT r

/-- Rank `rank_by_recency`: ROW_NUMBER by descending publish time. -/
def rank_by_recency (pu : List CandRow) (r : CandRow) : Nat := rnOf pu recLT r

/-- CTE `capped`: `rn_source <= 20 AND (category IS NULL OR rn_category
<= 120)`. -/
def capped (pu : List CandRow) : List CandRow :=
  pu.filter fun r =>
    rn_source pu r ≤ 20 && (r.category == none || rn_category pu r ≤ 120)

/-- Formula `final_rank = rank_by_distance + 0.35 * rank_by_recency`. -/
def final_rank (pu : List CandRow) (r : CandRow) : ℚ :=
  (rank_by_distance pu r : ℚ) + (35 / 100) * (rank_by_recency pu r : ℚ)

/-- Embeds `ORDER BY final_rank ASC` (engine tie order fixed by article id). -/
def frLE (pu : List CandRow) (r s : CandRow) : Bool :=
  decide (final_rank pu r < final_rank pu s ∨
    (final_rank pu r = final_rank pu s ∧ r.article_id ≤ s.article_id))

/-- Final select of the view: `rn_final <= 200 ORDER BY user_id,
rn_final`, for the slice of one user id. -/
def final_user_candidate_list (db : DB) (now : ℚ) (uid : Nat) : List CandRow :=
  match db.users.find? (fun v => v.id == uid) with
  | none => []
  | some u => (insSort (frLE (per_user db now u)) (capped (per_user db now u))).take 200

/-! ## Cold-start selector (`fetchColdStart`, feed.js lines 220-249) -/

/-- Constant `COLD_CATS`: the fixed category set of the cold-start query. -/
def coldCats : List String := ["Πολιτική", "Οικονομία", "Αθλητικά", "Gaming"]

/-- Constant `COLD_PER_CAT = 12`. -/
def coldPerCat : Nat := 12

/-- Publish time of an article, for the cold-start recency order (the
recency filter of the query guarantees it on every output row). -/
def pubTime (a : Article) : ℚ := a.published_at.getD 0

/-- Embeds `ORDER BY published_at DESC` over articles (tie fixed by id). -/
def coldLE (a b : Article) : Bool :=
  decide (pubTime b < pubTime a ∨ (pubTime b = pubTime a ∧ a.id ≤ b.id))

/-- WHERE clause of the cold-start query: published within 7 days (which
excludes a NULL `published_at`) and category in `COLD_CATS`. -/
def coldRecent (db : DB) (now : ℚ) : List Article :=
  db.articles.filter fun a =>
    match a.published_at with
    | some t => decide (now - sevenDays ≤ t) && (a.category.elim false coldCats.contains)
    | none => false

/-- One category partition of the cold-start query, `rn <= 12`. -/
def coldCatTop (db : DB) (now : ℚ) (c : String) : List Article :=
  (insSort coldLE ((coldRecent db now).filter fun a => a.category == some c)).take coldPerCat

/-- Function `fetchColdStart`: per-category recency top-12 over the fixed
category set, final `ORDER BY published_at DESC`. -/
def fetchColdStart (db : DB) (now : ℚ) : List Article :=
  insSort coldLE
    (coldCatTop db now "Πολιτική" ++ coldCatTop db now "Οικονομία" ++
     coldCatTop db now "Αθλητικά" ++ coldCatTop db now "Gaming")

/-! ## Impression Ledger (`logImpressions`, feed.js lines 194-218) and
the unique index `uq_impr_request_article` -/

/-- The key of the unique index `uq_impr_request_article
ON impressions (request_id, article_id)`. -/
def imprKey (i : Impression) : String × Nat := (i.request_id, i.article_id)

/-- The batch of impression rows built by `logImpressions`: one row per
article id with `rank_position` the 1-based position (`idx + 1`). -/
def mkImpressions (uid : Nat) (rid mv : String) (now : ℚ) (pos : Nat) :
    List Nat → List Impression
  | [] => []
  | aid :: rest =>
    { id := 0, user_id := uid, article_id := aid, shown_at := now,
      rank_position := pos, request_id := rid, model_version := mv } ::
    mkImpressions uid rid mv now (pos + 1) rest

/-- Transactional batch INSERT into `impressions`: succeeds (appending
all rows) iff no inserted row collides with the unique index
`(request_id, article_id)`, among the batch or against the table;
otherwise the whole statement fails and the table is unchanged. -/
def insertImpressions (tbl rows : List Impression) : Except Unit (List Impression) :=
  if (rows.map imprKey).Nodup ∧ ∀ r ∈ rows, imprKey r ∉ tbl.map imprKey then
    .ok (tbl ++ rows)
  else .error ()

/-- Function `logImpressions`: no-op on an empty item list, otherwise one batch
insert with rank positions 1..N in list order. -/
def logImpressions (tbl : List Impression) (uid : Nat) (rid : String)
    (items : List Nat) (mv : String) (now : ℚ) : Except Unit (List Impression) :=
  if items = [] then .ok tbl
  else insertImpressions tbl (mkImpressions uid rid mv now 1 items)

/-! ## Feed route `GET /feed` (feed.js lines 299-403) -/

/-- Environment of one feed request: the database, the server-generated
request id, whether the candidate query succeeds (the embedding store
being reachable), and the outcome of the remote scoring collaborator
(`ranking_service`), which returns re-ranked article ids or fails. -/
structure FeedEnv where
  db : DB
  rid : String
  retrievalOk : Bool
  rankResult : Except Unit (List Nat)

/-- The observable outcome of a feed request: HTTP status, the mode
flag of the response debug metadata, the served items, whether the
remote reranking collaborator was invoked, and the resulting
impressions table. -/
structure FeedResponse where
  status : Nat
  request_id : Option String
  mode : Option String
  items : List Article
  rankerCalled : Bool
  impressions : List Impression
deriving DecidableEq

/-- Query `hasUserEmbedding`: `SELECT embedding IS NOT NULL ... WHERE id=$1`,
false also when the user row is missing (`r.rows[0]?.ok` is undefined). -/
def hasUserEmbedding (db : DB) (uid : Nat) : Bool :=
  match db.users.find? (fun u => u.id == uid) with
  | none => false
  | some u => u.embedding.isSome

/-- Constant `CANDIDATE_LIMIT` (default 200). -/
def candidateLimit : Nat := 200

/-- Function `fetchCandidates`: top rows of `final_user_candidate_list` by
`rn_final`, `LIMIT CANDIDATE_LIMIT` (the view itself already caps at
200 rows). -/
def fetchCandidates (db : DB) (now : ℚ) (uid : Nat) : List CandRow :=
  (final_user_candidate_list db now uid).take candidateLimit

/-- An internal-error (HTTP 500) feed response: the catch-all handler. -/
def feedInternalError (db : DB) (rc : Bool) : FeedResponse :=
  { status := 500, request_id := none, mode := none, items := [],
    rankerCalled := rc, impressions := db.impressions }

/-- A validation-error (HTTP 400) feed response. -/
def feedBadRequest (db : DB) : FeedResponse :=
  { status := 400, request_id := none, mode := none, items := [],
    rankerCalled := false, impressions := db.impressions }

/-- The shared body of the cold-start and fallback branches: fetch the
recency sample, write the ledger, reply 200 with the given mode flag
(an impressions-insert failure propagates to the catch-all 500). -/
def serveColdFeed (env : FeedEnv) (uid : Nat) (mode mv : String) (now : ℚ) :
    FeedResponse :=
  match logImpressions env.db.impressions uid env.rid
      ((fetchColdStart env.db now).map (fun a => a.id)) mv now with
  | .error _ => feedInternalError env.db false
  | .ok tbl =>
    { status := 200, request_id := some env.rid, mode := some mode,
      items := fetchColdStart env.db now, rankerCalled := false,
      impressions := tbl }

/-- Route `GET /feed`: validation, cold start when the user has no embedding,
fallback when the candidate query returns no rows, otherwise remote
scoring followed by hydration and the ledger write.  A failing
candidate query or scoring call reaches the catch-all 500 handler. -/
def handleFeed (env : FeedEnv) (userId k : Int) (now : ℚ) : FeedResponse :=
  if ¬ 0 < userId then feedBadRequest env.db
  else if ¬ (1 ≤ k ∧ k ≤ 200) then feedBadRequest env.db
  else if hasUserEmbedding env.db userId.toNat = false then
    serveColdFeed env userId.toNat "coldstart" "coldstart_balanced_v1" now
  else if env.retrievalOk = false then feedInternalError env.db false
  else if fetchCandidates env.db now userId.toNat = [] then
    serveColdFeed env userId.toNat "fallback_no_candidates"
      "fallback_no_candidates_v1" now
  else
    match env.rankResult with
    | .error _ => feedInternalError env.db true
    | .ok rankedIds =>
      match logImpressions env.db.impressions userId.toNat env.rid
          (((rankedIds.filterMap fun i =>
              env.db.articles.find? (fun a => a.id == i)).map (fun a => a.id)))
          "ml_mmr_v1" now with
      | .error _ => feedInternalError env.db true
      | .ok tbl =>
        { status := 200, request_id := some env.rid,
          mode := some "personalized_mmr",
          items := rankedIds.filterMap fun i =>
            env.db.articles.find? (fun a => a.id == i),
          rankerCalled := true, impressions := tbl }

/-! ## Interaction Recorder `POST /feed/interact` (feed.js 408-460) -/

/-- Constant `ALLOWED = new Set(["click", "like", "share", "dislike"])`. -/
def allowedTypes : List String := ["click", "like", "share", "dislike"]

/-- The integrity-check query: an impression with the exact
`(user_id, request_id, article_id)` triple. -/
def hasMatchingImpression (db : DB) (uid : Nat) (rid : String) (aid : Nat) : Bool :=
  db.impressions.any fun i =>
    i.user_id == uid && i.request_id == rid && i.article_id == aid

/-- The observable outcome of an interaction request: HTTP status and
the resulting interactions table. -/
structure InteractResult where
  status : Nat
  interactions : List Interaction
deriving DecidableEq

/-- Route `POST /feed/interact`: validations in source order (user id,
article id, request id, interaction type), then the impression
integrity check (miss: 409 Conflict, no insert), then the insert. -/
def handleInteract (db : DB) (now : ℚ) (userId articleId : Int)
    (rid itype : String) : InteractResult :=
  if ¬ 0 < userId then ⟨400, db.interactions⟩
  else if ¬ 0 < articleId then ⟨400, db.interactions⟩
  else if rid.length < 10 then ⟨400, db.interactions⟩
  else if ¬ allowedTypes.contains itype = true then ⟨400, db.interactions⟩
  else if hasMatchingImpression db userId.toNat rid articleId.toNat = false then
    ⟨409, db.interactions⟩
  else
    ⟨200, db.interactions ++
      [{ id := 0, user_id := userId.toNat, article_id := articleId.toNat,
         request_id := some rid, interaction_type := itype,
         interaction_time := now, dwell_ms := none }]⟩

/-! ## Training Dataset Builder (src/unnamed/part_001) -/

/-- A row of the training views (shared column list of
`training_explicit_aligned` and `training_implicit_aligned`). -/
structure TrainRow where
  user_id : Nat
  article_id : Nat
  request_id : String
  shown_at : ℚ
  interaction_time : Option ℚ
  label : Nat
  weight : ℚ
  cosine_similarity : ℚ
  source : String
  category : Option String
  published_at : Option ℚ
  hours_since_publish : Option ℚ
deriving DecidableEq

/-- Pick the later-shown of two impressions (fold step for the lateral
`ORDER BY shown_at DESC LIMIT 1`; the engine-unspecified tie order is
fixed to the first-listed row). -/
def laterImpr (i j : Impression) : Impression :=
  if i.shown_at < j.shown_at then j else i

/-- The lateral join of `training_explicit_aligned`: the most recent
impression of the pair at or before the interaction time. -/
def latestImprBefore (db : DB) (uid aid : Nat) (t : ℚ) : Option Impression :=
  match db.impressions.filter
      (fun i => i.user_id == uid && i.article_id == aid && decide (i.shown_at ≤ t)) with
  | [] => none
  | x :: xs => some (xs.foldl laterImpr x)

/-- View `training_explicit_aligned`: one row per like/dislike interaction of
user 1 (the filter `it.user_id = 1` is in the view), joined to its
latest prior impression and to article and user rows with non-null
embeddings; label 1 for like, 0 for dislike; weight 1.0. -/
def training_explicit_aligned (db : DB) : List TrainRow :=
  db.interactions.filterMap fun it =>
    if it.user_id == 1 &&
        (it.interaction_type == "like" || it.interaction_type == "dislike") then
      match latestImprBefore db it.user_id it.article_id it.interaction_time,
          db.articles.find? (fun a => a.id == it.article_id),
          db.users.find? (fun v => v.id == it.user_id) with
      | some i, some a, some u =>
        match a.embedding, u.embedding with
        | some ae, some ue =>
          some { user_id := it.user_id, article_id := it.article_id,
                 request_id := i.request_id, shown_at := i.shown_at,
                 interaction_time := some it.interaction_time,
                 label := if it.interaction_type == "like" then 1 else 0,
                 weight := 1, cosine_similarity := 1 - db.dist ae ue,
                 source := a.source, category := a.category,
                 published_at := a.published_at,
                 hours_since_publish :=
                   a.published_at.map fun p => (i.shown_at - p) / 3600 }
        | _, _ => none
      | _, _, _ => none
    else none

/-- The `NOT EXISTS` subquery of `training_implicit_aligned`: a
like/dislike of the same (user, article) at or after the shown time. -/
def hasLaterReaction (db : DB) (i : Impression) : Bool :=
  db.interactions.any fun it =>
    it.user_id == i.user_id && it.article_id == i.article_id &&
    (it.interaction_type == "like" || it.interaction_type == "dislike") &&
    decide (i.shown_at ≤ it.interaction_time)

/-- View `training_implicit_aligned`: impressions of user 1 with embeddings
present and no subsequent like/dislike; label 0, weight 0.2. -/
def training_implicit_aligned (db : DB) : List TrainRow :=
  db.impressions.filterMap fun i =>
    if i.user_id == 1 && !(hasLaterReaction db i) then
      match db.articles.find? (fun a => a.id == i.article_id),
          db.users.find? (fun v => v.id == i.user_id) with
      | some a, some u =>
        match a.embedding, u.embedding with
        | some ae, some ue =>
          some { user_id := i.user_id, article_id := i.article_id,
                 request_id := i.request_id, shown_at := i.shown_at,
                 interaction_time := none, label := 0, weight := 1 / 5,
                 cosine_similarity := 1 - db.dist ae ue,
                 source := a.source, category := a.category,
                 published_at := a.published_at,
                 hours_since_publish :=
                   a.published_at.map fun p => (i.shown_at - p) / 3600 }
        | _, _ => none
      | _, _ => none
    else none

/-- View `training_implicit_sampled`: `ORDER BY random() LIMIT (SELECT
COUNT(*) FROM training_explicit_aligned)`.  The random shuffle is a
parameter: any permutation of `training_implicit_aligned`. -/
def training_implicit_sampled (db : DB) (shuffled : List TrainRow) : List TrainRow :=
  shuffled.take (training_explicit_aligned db).length

/-- View `training_dataset`: explicit UNION ALL sampled implicit. -/
def training_dataset (db : DB) (shuffled : List TrainRow) : List TrainRow :=
  training_explicit_aligned db ++ training_implicit_sampled db shuffled

/-- Embeds `percentile_cont(p) WITHIN GROUP (ORDER BY v)`: linear interpolation
at index `p * (n - 1)` of the sorted values; NULL (none) on no rows. -/
def percentileCont (p : ℚ) (l : List ℚ) : Option ℚ :=
  match insSort (fun a b => decide (a ≤ b)) l with
  | [] => none
  | v :: vs =>
    some (((v :: vs).getD (Int.floor (p * ((v :: vs).length - 1 : ℚ))).toNat v) +
      (p * ((v :: vs).length - 1 : ℚ) - (Int.floor (p * ((v :: vs).length - 1 : ℚ)) : ℚ)) *
      (((v :: vs).getD (Int.ceil (p * ((v :: vs).length - 1 : ℚ))).toNat v) -
       ((v :: vs).getD (Int.floor (p * ((v :: vs).length - 1 : ℚ))).toNat v)))

/-- View `training_split_cutoff`: the 80th percentile of `shown_at` over the
combined dataset. -/
def training_split_cutoff (db : DB) (shuffled : List TrainRow) : Option ℚ :=
  percentileCont (4 / 5) ((training_dataset db shuffled).map fun r => r.shown_at)

/-- View `training_dataset_train`: rows with `shown_at < cutoff_shown_at`
(the comparison against a NULL cutoff keeps no rows). -/
def training_dataset_train (db : DB) (shuffled : List TrainRow) : List TrainRow :=
  match training_split_cutoff db shuffled with
  | none => []
  | some c => (training_dataset db shuffled).filter fun r => decide (r.shown_at < c)

/-- View `training_dataset_val`: rows with `shown_at >= cutoff_shown_at`. -/
def training_dataset_val (db : DB) (shuffled : List TrainRow) : List TrainRow :=
  match training_split_cutoff db shuffled with
  | none => []
  | some c => (training_dataset db shuffled).filter fun r => decide (c ≤ r.shown_at)

/-! ## Lemmas about the balanced view -/

theorem mem_balBase {db : DB} {now : ℚ} {u : User} {r : BalRow}
    (h : r ∈ balBase db now u) :
    r.user_id = u.id ∧ hasInteraction db u.id r.article_id = false := by
  rcases List.mem_filterMap.mp h with ⟨a, ha, hf⟩
  rcases hae : a.embedding with _ | ae <;> rcases hap : a.published_at with _ | t <;>
    rw [hae, hap] at hf
  · simp at hf
  · simp at hf
  · simp at hf
  · rw [Option.ite_none_right_eq_some] at hf
    rcases hf with ⟨hc, hr⟩
    injection hr with hr2
    rw [← hr2]
    exact ⟨rfl, Bool.not_eq_true _ ▸ hc.2⟩

theorem mem_catTop {l : List BalRow} {c : String} {cap : Nat} {r : BalRow}
    (h : r ∈ catTop l c cap) : r ∈ l ∧ r.category = some c := by
  have h1 := (mem_insSort balLE r _).mp (List.mem_of_mem_take h)
  rcases List.mem_filter.mp h1 with ⟨h2, h3⟩
  exact ⟨h2, by simpa using h3⟩

theorem length_catTop (l : List BalRow) (c : String) (cap : Nat) :
    (catTop l c cap).length ≤ cap := by
  rw [catTop, List.length_take]
  exact Nat.min_le_left _ _

theorem countP_catTop_self (l : List BalRow) (c : String) (cap : Nat) :
    ((catTop l c cap).countP fun r => r.category == some c) ≤ cap :=
  le_trans (List.countP_le_length _) (length_catTop l c cap)

theorem countP_catTop_ne (l : List BalRow) {c c' : String} (h : c' ≠ c) (cap : Nat) :
    ((catTop l c' cap).countP fun r => r.category == some c) = 0 :=
  countP_eq_zero_of_all fun r hr => by
    have h2 := (mem_catTop hr).2
    simp [h2, h]

theorem mem_quota_applied {db : DB} {now : ℚ} {u : User} {r : BalRow}
    (h : r ∈ quota_applied db now u) : r ∈ balBase db now u := by
  rw [quota_applied] at h
  have hnf : ∀ s ∈ balNonForced db now u, s ∈ balBase db now u := by
    intro s hs
    exact (List.mem_filter.mp hs).1
  rcases List.mem_append.mp h with h | h
  · rcases List.mem_append.mp h with h | h
    · rcases List.mem_append.mp h with h | h
      · exact hnf _ (mem_catTop h).1
      · exact hnf _ (mem_catTop h).1
    · exact hnf _ (mem_catTop h).1
  · exact hnf _ (mem_catTop h).1

theorem mem_main_picked {db : DB} {now : ℚ} {u : User} {r : BalRow}
    (h : r ∈ main_picked db now u) : r ∈ balBase db now u :=
  mem_quota_applied ((mem_insSort balLE r _).mp (List.mem_of_mem_take h))

theorem mem_forced_picked {db : DB} {now : ℚ} {u : User} {r : BalRow}
    (h : r ∈ forced_picked db now u) :
    r ∈ balBase db now u ∧ forcedSources.contains r.source = true := by
  have h1 := (mem_insSort balLE r _).mp (List.mem_of_mem_take h)
  exact ⟨(List.mem_filter.mp h1).1, (List.mem_filter.mp h1).2⟩

theorem mem_balCombined_fst {db : DB} {now : ℚ} {u : User} {p : BalRow × Nat}
    (h : p ∈ balCombined db now u) : p.1 ∈ balBase db now u := by
  rcases List.mem_append.mp h with h | h
  · exact mem_main_picked (mem_enum1From 1 _ p h).1
  · rcases List.mem_map.mp h with ⟨q, hq, hpq⟩
    have h1 := (mem_enum1From 1 _ q hq).1
    have h2 : p.1 = q.1 := by rw [← hpq]
    exact h2 ▸ (mem_forced_picked h1).1

theorem find?_user_id {db : DB} {uid : Nat} {u : User}
    (h : db.users.find? (fun v => v.id == uid) = some u) : u.id = uid := by
  have := List.find?_some h
  simpa using this

/-- Claim C5: in the quota-balanced view, each configured category
contributes at most its configured cap (Πολιτική 45, Οικονομία 30,
Αθλητικά 20, Gaming 5) to the category-cap stage, rows whose category
is outside the configured mapping are dropped entirely from that stage,
and the forced slice holds at most 10 rows, all from the configured
source allowlist. -/
theorem balanced_quota_caps (db : DB) (now : ℚ) (u : User) :
    ((quota_applied db now u).countP fun r => r.category == some "Πολιτική") ≤ 45 ∧
    ((quota_applied db now u).countP fun r => r.category == some "Οικονομία") ≤ 30 ∧
    ((quota_applied db now u).countP fun r => r.category == some "Αθλητικά") ≤ 20 ∧
    ((quota_applied db now u).countP fun r => r.category == some "Gaming") ≤ 5 ∧
    ((quota_applied db now u).countP fun r =>
      !(r.category == some "Πολιτική" || r.category == some "Οικονομία" ||
        r.category == some "Αθλητικά" || r.category == some "Gaming")) = 0 ∧
    (forced_picked db now u).length ≤ 10 ∧
    ((forced_picked db now u).countP fun r => !(forcedSources.contains r.source)) = 0 := by
  have hsplit : ∀ p : BalRow → Bool, (quota_applied db now u).countP p =
      (catTop (balNonForced db now u) "Πολιτική" 45).countP p +
      (catTop (balNonForced db now u) "Οικονομία" 30).countP p +
      (catTop (balNonForced db now u) "Αθλητικά" 20).countP p +
      (catTop (balNonForced db now u) "Gaming" 5).countP p := by
    intro p
    rw [quota_applied, List.countP_append, List.countP_append, List.countP_append]
  refine ⟨?_, ?_, ?_, ?_, ?_, ?_, ?_⟩
  · rw [hsplit]
    have h1 := countP_catTop_self (balNonForced db now u) "Πολιτική" 45
    have h2 := countP_catTop_ne (balNonForced db now u)
      (show "Οικονομία" ≠ "Πολιτική" by decide) 30
    have h3 := countP_catTop_ne (balNonForced db now u)
      (show "Αθλητικά" ≠ "Πολιτική" by decide) 20
    have h4 := countP_catTop_ne (balNonForced db now u)
      (show "Gaming" ≠ "Πολιτική" by decide) 5
    omega
  · rw [hsplit]
    have h1 := countP_catTop_ne (balNonForced db now u)
      (show "Πολιτική" ≠ "Οικονομία" by decide) 45
    have h2 := countP_catTop_self (balNonForced db now u) "Οικονομία" 30
    have h3 := countP_catTop_ne (balNonForced db now u)
      (show "Αθλητικά" ≠ "Οικονομία" by decide) 20
    have h4 := countP_catTop_ne (balNonForced db now u)
      (show "Gaming" ≠ "Οικονομία" by decide) 5
    omega
  · rw [hsplit]
    have h1 := countP_catTop_ne (balNonForced db now u)
      (show "Πολιτική" ≠ "Αθλητικά" by decide) 45
    have h2 := countP_catTop_ne (balNonForced db now u)
      (show "Οικονομία" ≠ "Αθλητικά" by decide) 30
    have h3 := countP_catTop_self (balNonForced db now u) "Αθλητικά" 20
    have h4 := countP_catTop_ne (balNonForced db now u)
      (show "Gaming" ≠ "Αθλητικά" by decide) 5
    omega
  · rw [hsplit]
    have h1 := countP_catTop_ne (balNonForced db now u)
      (show "Πολιτική" ≠ "Gaming" by decide) 45
    have h2 := countP_catTop_ne (balNonForced db now u)
      (show "Οικονομία" ≠ "Gaming" by decide) 30
    have h3 := countP_catTop_ne (balNonForced db now u)
      (show "Αθλητικά" ≠ "Gaming" by decide) 20
    have h4 := countP_catTop_self (balNonForced db now u) "Gaming" 5
    omega
  · refine countP_eq_zero_of_all fun r hr => ?_
    rw [quota_applied] at hr
    have hone : r.category = some "Πολιτική" ∨ r.category = some "Οικονομία" ∨
        r.category = some "Αθλητικά" ∨ r.category = some "Gaming" := by
      rcases List.mem_append.mp hr with h | h
      · rcases List.mem_append.mp h with h | h
        · rcases List.mem_append.mp h with h | h
          · exact Or.inl (mem_catTop h).2
          · exact Or.inr (Or.inl (mem_catTop h).2)
        · exact Or.inr (Or.inr (Or.inl (mem_catTop h).2))
      · exact Or.inr (Or.inr (Or.inr (mem_catTop h).2))
    rcases hone with h | h | h | h <;> rw [h] <;> decide
  · rw [forced_picked, List.length_take]
    exact Nat.min_le_left _ _
  · refine countP_eq_zero_of_all fun r hr => ?_
    have hc := (mem_forced_picked hr).2
    rw [hc]
    rfl

theorem map_add_left_range' (a s n : Nat) :
    (List.range' s n).map (fun x => a + x) = List.range' (a + s) n := by
  induction n generalizing s with
  | zero => rfl
  | succ n ih =>
    rw [List.range', List.range', List.map_cons, ih (s + 1)]
    rw [show a + (s + 1) = a + s + 1 from rfl]

theorem length_main_picked (db : DB) (now : ℚ) (u : User) :
    (main_picked db now u).length ≤ 90 := by
  rw [main_picked, List.length_take]
  exact Nat.min_le_left _ _

theorem length_forced_picked (db : DB) (now : ℚ) (u : User) :
    (forced_picked db now u).length ≤ 10 := by
  rw [forced_picked, List.length_take]
  exact Nat.min_le_left _ _

/-- Claim C6 (amended): in forced-source mode, the forced items are
appended after the main category-capped pool, preserving their own
relative order, but their ranking offset is the constant 90 (the
configured main-pool cap), not the actual size of the main pool: the
ranks are 1..|main| followed by 91..90+|forced|, and the final
`rn_user <= 100` filter never drops a row.  The combined ranking is
contiguous only when the main pool reaches exactly 90 rows. -/
theorem balanced_forced_offset (db : DB) (now : ℚ) (u : User) :
    (balCombined db now u).map Prod.fst =
      main_picked db now u ++ forced_picked db now u ∧
    (balCombined db now u).map Prod.snd =
      List.range' 1 (main_picked db now u).length ++
      List.range' 91 (forced_picked db now u).length ∧
    (balCombined db now u).filter (fun p => p.2 ≤ 100) = balCombined db now u := by
  refine ⟨?_, ?_, ?_⟩
  · rw [balCombined, List.map_append, map_fst_enum1From, List.map_map]
    have : (Prod.fst ∘ fun p : BalRow × Nat => (p.1, 90 + p.2)) = Prod.fst := rfl
    rw [this, map_fst_enum1From]
  · rw [balCombined, List.map_append, map_snd_enum1From, List.map_map]
    have : (Prod.snd ∘ fun p : BalRow × Nat => (p.1, 90 + p.2)) =
        (fun x : BalRow × Nat => 90 + x.2) := rfl
    rw [this]
    have h2 : ((enum1From 1 (forced_picked db now u)).map fun x => 90 + x.2) =
        ((enum1From 1 (forced_picked db now u)).map Prod.snd).map fun x => 90 + x := by
      rw [List.map_map]
      rfl
    rw [h2, map_snd_enum1From, map_add_left_range' 90 1]
  · rw [List.filter_eq_self]
    intro p hp
    rcases List.mem_append.mp hp with h | h
    · have h1 := (mem_enum1From 1 _ p h).2.2
      have h2 := length_main_picked db now u
      simpa using by omega
    · rcases List.mem_map.mp h with ⟨q, hq, hpq⟩
      have h1 := (mem_enum1From 1 _ q hq).2.2
      have h2 := length_forced_picked db now u
      have h3 : p.2 = 90 + q.2 := by rw [← hpq]
      simpa [h3] using by omega

/-- User of the forced-offset counterexample database. -/
def u6 : User := { id := 1, username := "u", embedding := some [1] }

/-- A single forced-source article: the main pool is empty. -/
def art6 : Article :=
  { id := 3, title := "t", source := "bbc.com", category := some "Αθλητικά",
    url := "http", published_at := some 100, embedding := some [1],
    image_url := none }

/-- Database with one forced-source candidate and nothing else. -/
def db6 : DB :=
  { articles := [art6], users := [u6], impressions := [], interactions := [],
    dist := fun _ _ => 0 }

unseal Rat.mul Rat.add Rat.sub Rat.inv in
/-- Claim C6, counterexample: with an empty main pool and one forced
candidate, the forced slice starts at rank 91, not at the size of the
main pool plus one — the combined ranking has a gap of 90. -/
theorem balanced_forced_offset_cex :
    (main_picked db6 100 u6).length = 0 ∧
    (balCombined db6 100 u6).map Prod.snd = [91] ∧
    (user_semantic_candidates_balanced db6 100 1).map Prod.snd = [91] ∧
    ¬ (balCombined db6 100 u6).map Prod.snd =
        List.range' 1
          ((main_picked db6 100 u6).length + (forced_picked db6 100 u6).length) := by
  decide

/-! ## Lemmas about `final_user_candidate_list` -/

theorem mem_candFiltered {db : DB} {now : ℚ} {u : User} {r : CandRow}
    (h : r ∈ candFiltered db now u) :
    hasInteraction db u.id r.article_id = false := by
  rw [candFiltered] at h
  rcases hue : u.embedding with _ | ue <;> rw [hue] at h
  · simp at h
  · rcases List.mem_filterMap.mp h with ⟨a, ha, hf⟩
    rcases hae : a.embedding with _ | ae <;> rcases hap : a.published_at with _ | t <;>
      rw [hae, hap] at hf
    · simp at hf
    · simp at hf
    · simp at hf
    · rw [Option.ite_none_right_eq_some] at hf
      rcases hf with ⟨hc, hr⟩
      injection hr with hr2
      rw [← hr2]
      exact Bool.not_eq_true _ ▸ hc.2

theorem mem_final_user_candidate_list {db : DB} {now : ℚ} {uid : Nat} {r : CandRow}
    (h : r ∈ final_user_candidate_list db now uid) :
    hasInteraction db uid r.article_id = false := by
  rw [final_user_candidate_list] at h
  rcases hfind : db.users.find? (fun v => v.id == uid) with _ | u <;> rw [hfind] at h
  · simp at h
  · have h1 := (mem_insSort _ r _).mp (List.mem_of_mem_take h)
    have h2 := (List.mem_filter.mp h1).1
    have h3 := (mem_insSort distLE r _).mp (List.mem_of_mem_take h2)
    have h4 := mem_candFiltered h3
    rw [find?_user_id hfind] at h4
    exact h4

/-- Claim C1 (amended): neither candidate view ever returns an article
the user has an Interaction row for (of any type); the exclusion
filter of both views is on `interactions`, not on `impressions`, so an
article that was merely served (Impression only, no reaction) may be
returned again. -/
theorem candidate_exclusion_by_interaction (db : DB) (now : ℚ) (uid : Nat) :
    ((user_semantic_candidates_balanced db now uid).countP
      fun p => hasInteraction db uid p.1.article_id) = 0 ∧
    ((final_user_candidate_list db now uid).countP
      fun r => hasInteraction db uid r.article_id) = 0 := by
  constructor
  · refine countP_eq_zero_of_all fun p hp => ?_
    rw [user_semantic_candidates_balanced] at hp
    rcases hfind : db.users.find? (fun v => v.id == uid) with _ | u <;> rw [hfind] at hp
    · simp at hp
    · have h1 := mem_balCombined_fst (List.mem_filter.mp hp).1
      have h2 := (mem_balBase h1).2
      rw [find?_user_id hfind] at h2
      exact h2
  · refine countP_eq_zero_of_all fun r hr => ?_
    exact mem_final_user_candidate_list hr

/-- User of the impression-exclusion counterexample database. -/
def u1c : User := { id := 1, username := "u", embedding := some [1] }

/-- A recent article with an embedding, in a configured category. -/
def art1c : Article :=
  { id := 7, title := "t", source := "x.com", category := some "Gaming",
    url := "http", published_at := some 100, embedding := some [1],
    image_url := none }

/-- An impression of that article for user 1 (served, never reacted to). -/
def impr1c : Impression :=
  { id := 1, user_id := 1, article_id := 7, shown_at := 50, rank_position := 1,
    request_id := "req-aaaaaaaaaa", model_version := "m" }

/-- Database where article 7 was already served to user 1 (an
Impression exists) but user 1 never interacted with it. -/
def db1c : DB :=
  { articles := [art1c], users := [u1c], impressions := [impr1c],
    interactions := [], dist := fun _ _ => 0 }

unseal Rat.mul Rat.add Rat.sub Rat.inv in
/-- Claim C1, counterexample: both candidate views return article 7 for
user 1 even though an Impression for (user 1, article 7) exists — a
previously served item is re-shown when the user never reacted to it. -/
theorem candidate_exclusion_cex :
    (user_semantic_candidates_balanced db1c 100 1).map (fun p => p.1.article_id) = [7] ∧
    (final_user_candidate_list db1c 100 1).map (fun r => r.article_id) = [7] ∧
    db1c.impressions.any (fun i => i.user_id == 1 && i.article_id == 7) = true := by
  decide

/-! ## Training-dataset claims -/

theorem percentileCont_of_ne_nil (p : ℚ) (l : List ℚ) (h : l ≠ []) :
    ∃ c, percentileCont p l = some c := by
  rcases hs : insSort (fun a b => decide (a ≤ b)) l with _ | ⟨v, vs⟩
  · exfalso
    apply h
    have hlen := length_insSort (fun a b => decide (a ≤ b)) l
    rw [hs] at hlen
    exact List.length_eq_zero.mp hlen.symm
  · exact ⟨_, by rw [percentileCont, hs]⟩

/-- Claim C2: the combined training dataset (explicit union sampled
implicit) is cut at the 80th percentile of its shown-at timestamps;
rows strictly before the cutoff form the train split, rows at or after
it form the validation split, and every row lands in exactly one of the
two splits (as multisets: train ++ val is a permutation of the whole
dataset). -/
theorem temporal_split_partition (db : DB) (shuffled : List TrainRow)
    (hs : List.Perm shuffled (training_implicit_aligned db))
    (hne : training_dataset db shuffled ≠ []) :
    ∃ c, training_split_cutoff db shuffled = some c ∧
      training_dataset_train db shuffled =
        (training_dataset db shuffled).filter (fun r => decide (r.shown_at < c)) ∧
      training_dataset_val db shuffled =
        (training_dataset db shuffled).filter (fun r => decide (c ≤ r.shown_at)) ∧
      List.Perm
        (training_dataset_train db shuffled ++ training_dataset_val db shuffled)
        (training_dataset db shuffled) ∧
      ∀ r ∈ training_dataset db shuffled,
        (r.shown_at < c ∧ ¬ c ≤ r.shown_at) ∨
        (c ≤ r.shown_at ∧ ¬ r.shown_at < c) := by
  obtain ⟨c, hc⟩ : ∃ c, training_split_cutoff db shuffled = some c := by
    rw [training_split_cutoff]
    refine percentileCont_of_ne_nil _ _ ?_
    simpa using hne
  have htr : training_dataset_train db shuffled =
      (training_dataset db shuffled).filter (fun r => decide (r.shown_at < c)) := by
    rw [training_dataset_train, hc]
  have hva : training_dataset_val db shuffled =
      (training_dataset db shuffled).filter (fun r => decide (c ≤ r.shown_at)) := by
    rw [training_dataset_val, hc]
  have hcompl : (training_dataset db shuffled).filter (fun r => decide (c ≤ r.shown_at)) =
      (training_dataset db shuffled).filter (fun r => !(decide (r.shown_at < c))) := by
    apply List.filter_congr
    intro r hr
    by_cases h : r.shown_at < c
    · simp [h, not_le.mpr h]
    · simp [h, not_lt.mp h]
  refine ⟨c, hc, htr, hva, ?_, ?_⟩
  · rw [htr, hva, hcompl]
    exact List.filter_append_perm _ _
  · intro r hr
    by_cases h : r.shown_at < c
    · exact Or.inl ⟨h, not_le.mpr h⟩
    · exact Or.inr ⟨not_lt.mp h, h⟩

/-- User 1 with an embedding, for the training-view examples. -/
def uT : User := { id := 1, username := "u", embedding := some [1] }

/-- Article 5 with an embedding and a publish time. -/
def artT : Article :=
  { id := 5, title := "t", source := "s", category := some "Gaming",
    url := "http", published_at := some 0, embedding := some [1],
    image_url := none }

/-- An impression of article 5 for user 1, shown at time 10. -/
def imprT : Impression :=
  { id := 1, user_id := 1, article_id := 5, shown_at := 10, rank_position := 1,
    request_id := "req-aaaaaaaaaa", model_version := "m" }

/-- A like at time 20 of the shown article. -/
def likeT : Interaction :=
  { id := 1, user_id := 1, article_id := 5, request_id := some "req-aaaaaaaaaa",
    interaction_type := "like", interaction_time := 20, dwell_ms := none }

/-- Database with one explicit (liked) training row and no implicit
candidate rows: the only impression has a later like. -/
def dbOneExplicit : DB :=
  { articles := [artT], users := [uT], impressions := [imprT],
    interactions := [likeT], dist := fun _ _ => 0 }

unseal Rat.mul Rat.add Rat.sub Rat.inv in
/-- Claim C2, witness: the split of the one-row dataset is well defined
and partitions it. -/
theorem temporal_split_partition_witness :
    ∃ c, training_split_cutoff dbOneExplicit [] = some c ∧
      training_dataset_train dbOneExplicit [] =
        (training_dataset dbOneExplicit []).filter (fun r => decide (r.shown_at < c)) ∧
      training_dataset_val dbOneExplicit [] =
        (training_dataset dbOneExplicit []).filter (fun r => decide (c ≤ r.shown_at)) ∧
      List.Perm
        (training_dataset_train dbOneExplicit [] ++ training_dataset_val dbOneExplicit [])
        (training_dataset dbOneExplicit []) ∧
      ∀ r ∈ training_dataset dbOneExplicit [],
        (r.shown_at < c ∧ ¬ c ≤ r.shown_at) ∨
        (c ≤ r.shown_at ∧ ¬ r.shown_at < c) := by
  refine temporal_split_partition dbOneExplicit [] ?_ ?_
  · have h : training_implicit_aligned dbOneExplicit = [] := by decide
    rw [h]
  · decide

/-- Claim C8 (amended): the implicit class of the training dataset is
randomly subsampled to min(#explicit, #implicit-pool) rows: exactly the
explicit row count whenever at least that many shown-but-unreacted
impressions exist, and all available implicit rows otherwise (the SQL
LIMIT cannot create rows). -/
theorem implicit_sampling_size (db : DB) (shuffled : List TrainRow)
    (hs : List.Perm shuffled (training_implicit_aligned db)) :
    (training_implicit_sampled db shuffled).length =
      min (training_explicit_aligned db).length
        (training_implicit_aligned db).length := by
  rw [training_implicit_sampled, List.length_take, hs.length_eq]

unseal Rat.mul Rat.add Rat.sub Rat.inv in
/-- Claim C8, counterexample: with exactly one explicit row and an
empty implicit pool (every impression got a later like), the sampled
implicit class has 0 rows, not 1 — the implicit class does not always
match the explicit row count. -/
theorem implicit_sampling_size_cex :
    (training_explicit_aligned dbOneExplicit).length = 1 ∧
    training_implicit_aligned dbOneExplicit = [] ∧
    (training_implicit_sampled dbOneExplicit []).length = 0 := by
  decide

unseal Rat.mul Rat.add Rat.sub Rat.inv in
/-- Claim C8, witness for the amended theorem at a concrete state. -/
theorem implicit_sampling_size_witness :
    (training_implicit_sampled dbOneExplicit []).length =
      min (training_explicit_aligned dbOneExplicit).length
        (training_implicit_aligned dbOneExplicit).length := by
  refine implicit_sampling_size dbOneExplicit [] ?_
  have h : training_implicit_aligned dbOneExplicit = [] := by decide
  rw [h]

/-! ## Ledger lemmas -/

theorem map_rank_mkImpressions (uid : Nat) (rid mv : String) (now : ℚ)
    (pos : Nat) (ids : List Nat) :
    (mkImpressions uid rid mv now pos ids).map (fun i => i.rank_position) =
      List.range' pos ids.length := by
  induction ids generalizing pos with
  | nil => rfl
  | cons a l ih =>
    rw [mkImpressions, List.map_cons, ih, List.length_cons, List.range']

theorem map_article_mkImpressions (uid : Nat) (rid mv : String) (now : ℚ)
    (pos : Nat) (ids : List Nat) :
    (mkImpressions uid rid mv now pos ids).map (fun i => i.article_id) = ids := by
  induction ids generalizing pos with
  | nil => rfl
  | cons a l ih => rw [mkImpressions, List.map_cons, ih]

theorem map_key_mkImpressions (uid : Nat) (rid mv : String) (now : ℚ)
    (pos : Nat) (ids : List Nat) :
    (mkImpressions uid rid mv now pos ids).map imprKey =
      ids.map (fun a => (rid, a)) := by
  induction ids generalizing pos with
  | nil => rfl
  | cons a l ih =>
    rw [mkImpressions, List.map_cons, ih, List.map_cons]
    rfl

theorem length_mkImpressions (uid : Nat) (rid mv : String) (now : ℚ)
    (pos : Nat) (ids : List Nat) :
    (mkImpressions uid rid mv now pos ids).length = ids.length := by
  induction ids generalizing pos with
  | nil => rfl
  | cons a l ih => rw [mkImpressions, List.length_cons, ih, List.length_cons]

theorem insertImpressions_ok {tbl rows tbl' : List Impression}
    (h : insertImpressions tbl rows = .ok tbl') :
    tbl' = tbl ++ rows ∧ (rows.map imprKey).Nodup ∧
      ∀ r ∈ rows, imprKey r ∉ tbl.map imprKey := by
  by_cases hg : (rows.map imprKey).Nodup ∧ ∀ r ∈ rows, imprKey r ∉ tbl.map imprKey
  · rw [insertImpressions, if_pos hg] at h
    injection h with h2
    exact ⟨h2.symm, hg.1, hg.2⟩
  · rw [insertImpressions, if_neg hg] at h
    exact Except.noConfusion h

/-- Claim C3: a successful Impression Ledger write of N ordered article
ids appends exactly N rows whose rank positions are the contiguous
sequence 1..N in list order and whose article ids are the given list in
order; the write preserves the invariant that no two rows share the
same (request id, article id) key; an empty list performs no write; and
a feed request whose cold-start sample is empty still returns a valid
empty 200 feed. -/
theorem ledger_batch_write (tbl : List Impression) (uid : Nat) (rid mv : String)
    (now : ℚ) (ids : List Nat) :
    (∀ tbl', logImpressions tbl uid rid ids mv now = .ok tbl' →
      tbl' = tbl ++ mkImpressions uid rid mv now 1 ids ∧
      tbl'.length = tbl.length + ids.length ∧
      (mkImpressions uid rid mv now 1 ids).map (fun i => i.rank_position) =
        List.range' 1 ids.length ∧
      (mkImpressions uid rid mv now 1 ids).map (fun i => i.article_id) = ids ∧
      ((tbl.map imprKey).Nodup → (tbl'.map imprKey).Nodup)) ∧
    (ids = [] → logImpressions tbl uid rid ids mv now = .ok tbl) ∧
    (∀ env : FeedEnv, ∀ userId k : Int, 0 < userId → 1 ≤ k → k ≤ 200 →
      hasUserEmbedding env.db userId.toNat = false →
      fetchColdStart env.db now = [] →
      handleFeed env userId k now =
        { status := 200, request_id := some env.rid, mode := some "coldstart",
          items := [], rankerCalled := false,
          impressions := env.db.impressions }) := by
  refine ⟨?_, ?_, ?_⟩
  · intro tbl' h
    by_cases hids : ids = []
    · subst hids
      rw [logImpressions, if_pos rfl] at h
      injection h with h2
      subst h2
      simp [mkImpressions]
    · rw [logImpressions, if_neg hids] at h
      rcases insertImpressions_ok h with ⟨heq, hnd, hdisj⟩
      subst heq
      refine ⟨rfl, ?_, map_rank_mkImpressions uid rid mv now 1 ids,
        map_article_mkImpressions uid rid mv now 1 ids, ?_⟩
      · rw [List.length_append, length_mkImpressions]
      · intro hnt
        rw [List.map_append, List.nodup_append]
        refine ⟨hnt, hnd, ?_⟩
        intro k hk1 hk2
        rcases List.mem_map.mp hk2 with ⟨r, hr, hkey⟩
        exact (hdisj r hr) (hkey ▸ hk1)
  · intro hids
    rw [logImpressions, if_pos hids]
  · intro env userId k h1 h2 h3 hne hcs
    rw [handleFeed, if_neg (not_not_intro h1), if_neg (not_not_intro ⟨h2, h3⟩),
      if_pos hne, serveColdFeed, hcs]
    rw [show ([] : List Article).map (fun a => a.id) = [] from rfl]
    rw [logImpressions, if_pos rfl]

unseal Rat.mul Rat.add Rat.sub Rat.inv in
/-- Claim C3, witness: a write of [5, 9] appends two rows ranked 1, 2
in order, and an empty write changes nothing. -/
theorem ledger_batch_write_witness :
    logImpressions [] 1 "req-aaaaaaaaaa" [5, 9] "m" 0 =
      .ok (mkImpressions 1 "req-aaaaaaaaaa" "m" 0 1 [5, 9]) ∧
    (mkImpressions 1 "req-aaaaaaaaaa" "m" 0 1 [5, 9]).map
      (fun i => i.rank_position) = [1, 2] ∧
    (mkImpressions 1 "req-aaaaaaaaaa" "m" 0 1 [5, 9]).map
      (fun i => i.article_id) = [5, 9] ∧
    logImpressions [] 1 "req-aaaaaaaaaa" [] "m" 0 = .ok [] := by
  have h := (ledger_batch_write [] 1 "req-aaaaaaaaaa" "m" 0 [5, 9]).1
    (mkImpressions 1 "req-aaaaaaaaaa" "m" 0 1 [5, 9]) (by rfl)
  refine ⟨by rfl, ?_, h.2.2.2.1,
    (ledger_batch_write [] 1 "req-aaaaaaaaaa" "m" 0 ([] : List Nat)).2.1 rfl⟩
  rw [h.2.2.1]
  rfl

/-- Claim C4: for an interaction request with valid user id, article id
and request id, an interaction type outside the allowed enum is
rejected as 400 before any impression lookup, and a type-valid request
whose (user id, request id, article id) triple matches no impression
returns a 409 Conflict (distinct from the generic 500) and inserts no
Interaction row. -/
theorem interact_conflict (db : DB) (now : ℚ) (userId articleId : Int)
    (rid itype : String) (h1 : 0 < userId) (h2 : 0 < articleId)
    (h3 : ¬ rid.length < 10) :
    (allowedTypes.contains itype = false →
      handleInteract db now userId articleId rid itype = ⟨400, db.interactions⟩) ∧
    (allowedTypes.contains itype = true →
      hasMatchingImpression db userId.toNat rid articleId.toNat = false →
      handleInteract db now userId articleId rid itype = ⟨409, db.interactions⟩ ∧
      (handleInteract db now userId articleId rid itype).status ≠ 500) := by
  rw [handleInteract, if_neg (not_not_intro h1), if_neg (not_not_intro h2),
    if_neg h3]
  constructor
  · intro ht
    rw [if_pos (show ¬ allowedTypes.contains itype = true by rw [ht]; simp)]
  · intro ht hmiss
    rw [if_neg (not_not_intro ht), if_pos hmiss]
    refine ⟨rfl, ?_⟩
    simp

/-- Claim C4, witness: with an impression ledger holding only request
id "req-aaaaaaaaaa", an interaction naming the never-issued request id
"req-bbbbbbbbbb" is a 409 with no Interaction row, and an invalid
interaction type is a 400 even though the impression lookup would also
miss. -/
theorem interact_conflict_witness :
    handleInteract db1c 0 1 7 "req-bbbbbbbbbb" "like" = ⟨409, []⟩ ∧
    handleInteract db1c 0 1 7 "req-bbbbbbbbbb" "nope" = ⟨400, []⟩ := by
  have h := interact_conflict db1c 0 1 7 "req-bbbbbbbbbb" "like"
    (by decide) (by decide) (by decide)
  have h2 := interact_conflict db1c 0 1 7 "req-bbbbbbbbbb" "nope"
    (by decide) (by decide) (by decide)
  exact ⟨(h.2 (by decide) (by decide)).1, h2.1 (by decide)⟩

/-! ## Cold-start and feed-handler lemmas -/

theorem mem_mkImpressions {uid : Nat} {rid mv : String} {now : ℚ} {pos : Nat}
    {ids : List Nat} {r : Impression}
    (h : r ∈ mkImpressions uid rid mv now pos ids) : r.request_id = rid := by
  induction ids generalizing pos with
  | nil => simp [mkImpressions] at h
  | cons a l ih =>
    rw [mkImpressions, List.mem_cons] at h
    rcases h with rfl | h
    · rfl
    · exact ih h

theorem logImpressions_ok (tbl : List Impression) (uid : Nat) (rid mv : String)
    (now : ℚ) (ids : List Nat) (hnd : ids.Nodup)
    (hfresh : ∀ i ∈ tbl, i.request_id ≠ rid) :
    logImpressions tbl uid rid ids mv now =
      .ok (tbl ++ mkImpressions uid rid mv now 1 ids) := by
  by_cases hids : ids = []
  · subst hids
    rw [logImpressions, if_pos rfl, mkImpressions, List.append_nil]
  · rw [logImpressions, if_neg hids, insertImpressions, if_pos ?_]
    constructor
    · rw [map_key_mkImpressions]
      exact hnd.map fun a b hab => (Prod.ext_iff.mp hab).2
    · intro r hr hkey
      rcases List.mem_map.mp hkey with ⟨i, hi, hik⟩
      have h1 : i.request_id = r.request_id := (Prod.ext_iff.mp hik).1
      have h2 : r.request_id = rid := mem_mkImpressions hr
      exact hfresh i hi (h1.trans h2)

theorem serveColdFeed_ok (env : FeedEnv) (uid : Nat) (mode mv : String) (now : ℚ)
    (hfresh : ∀ i ∈ env.db.impressions, i.request_id ≠ env.rid)
    (hnd : ((fetchColdStart env.db now).map fun a => a.id).Nodup) :
    serveColdFeed env uid mode mv now =
      { status := 200, request_id := some env.rid, mode := some mode,
        items := fetchColdStart env.db now, rankerCalled := false,
        impressions := env.db.impressions ++
          mkImpressions uid env.rid mv now 1
            ((fetchColdStart env.db now).map fun a => a.id) } := by
  rw [serveColdFeed, logImpressions_ok env.db.impressions uid env.rid mv now
    ((fetchColdStart env.db now).map fun a => a.id) hnd hfresh]

theorem handleFeed_cold (env : FeedEnv) (userId k : Int) (now : ℚ)
    (h1 : 0 < userId) (hk : 1 ≤ k ∧ k ≤ 200)
    (hemb : hasUserEmbedding env.db userId.toNat = false) :
    handleFeed env userId k now =
      serveColdFeed env userId.toNat "coldstart" "coldstart_balanced_v1" now := by
  rw [handleFeed, if_neg (not_not_intro h1), if_neg (not_not_intro hk), if_pos hemb]

theorem handleFeed_fallback (env : FeedEnv) (userId k : Int) (now : ℚ)
    (h1 : 0 < userId) (hk : 1 ≤ k ∧ k ≤ 200)
    (hembT : hasUserEmbedding env.db userId.toNat = true)
    (hro : env.retrievalOk = true)
    (hc : fetchCandidates env.db now userId.toNat = []) :
    handleFeed env userId k now =
      serveColdFeed env userId.toNat "fallback_no_candidates"
        "fallback_no_candidates_v1" now := by
  rw [handleFeed, if_neg (not_not_intro h1), if_neg (not_not_intro hk),
    if_neg (by simp [hembT]), if_neg (by simp [hro]), if_pos hc]

theorem serveColdFeed_items (env : FeedEnv) (uid : Nat) (mode mv : String)
    (now : ℚ) (hst : (serveColdFeed env uid mode mv now).status = 200) :
    (serveColdFeed env uid mode mv now).items = fetchColdStart env.db now := by
  rw [serveColdFeed] at hst ⊢
  cases hlog : logImpressions env.db.impressions uid env.rid
      ((fetchColdStart env.db now).map fun a => a.id) mv now with
  | error e =>
    rw [hlog] at hst
    simp [feedInternalError] at hst
  | ok tbl => rfl

theorem mem_coldRecent {db : DB} {now : ℚ} {a : Article}
    (h : a ∈ coldRecent db now) :
    a ∈ db.articles ∧ ∃ t, a.published_at = some t ∧ now - sevenDays ≤ t := by
  rcases List.mem_filter.mp h with ⟨h1, h2⟩
  refine ⟨h1, ?_⟩
  rcases hap : a.published_at with _ | t <;> rw [hap] at h2
  · simp at h2
  · refine ⟨t, rfl, ?_⟩
    have h3 := (Bool.and_eq_true _ _).mp h2
    simpa using h3.1

theorem mem_coldCatTop {db : DB} {now : ℚ} {c : String} {a : Article}
    (h : a ∈ coldCatTop db now c) :
    a ∈ coldRecent db now ∧ a.category = some c := by
  have h1 := (mem_insSort coldLE a _).mp (List.mem_of_mem_take h)
  rcases List.mem_filter.mp h1 with ⟨h2, h3⟩
  exact ⟨h2, by simpa using h3⟩

theorem length_coldCatTop (db : DB) (now : ℚ) (c : String) :
    (coldCatTop db now c).length ≤ 12 := by
  rw [coldCatTop, List.length_take]
  exact Nat.min_le_left _ _

theorem countP_coldCatTop_self (db : DB) (now : ℚ) (c : String) :
    ((coldCatTop db now c).countP fun a => a.category == some c) ≤ 12 :=
  le_trans (List.countP_le_length _) (length_coldCatTop db now c)

theorem countP_coldCatTop_ne (db : DB) (now : ℚ) {c c' : String} (h : c' ≠ c) :
    ((coldCatTop db now c').countP fun a => a.category == some c) = 0 :=
  countP_eq_zero_of_all fun a ha => by
    have h2 := (mem_coldCatTop ha).2
    simp [h2, h]

theorem coldLE_total (a b : Article) : coldLE a b = true ∨ coldLE b a = true := by
  rw [coldLE, coldLE, decide_eq_true_eq, decide_eq_true_eq]
  rcases lt_trichotomy (pubTime b) (pubTime a) with h | h | h
  · exact Or.inl (Or.inl h)
  · rcases Nat.le_total a.id b.id with h2 | h2
    · exact Or.inl (Or.inr ⟨h, h2⟩)
    · exact Or.inr (Or.inr ⟨h.symm, h2⟩)
  · exact Or.inr (Or.inl h)

theorem coldLE_trans (a b c : Article) (h1 : coldLE a b = true)
    (h2 : coldLE b c = true) : coldLE a c = true := by
  rw [coldLE, decide_eq_true_eq] at h1 h2 ⊢
  rcases h1 with h1 | ⟨h1e, h1i⟩ <;> rcases h2 with h2 | ⟨h2e, h2i⟩
  · exact Or.inl (lt_trans h2 h1)
  · exact Or.inl (lt_of_le_of_lt (le_of_eq h2e) h1)
  · exact Or.inl (lt_of_lt_of_le h2 (le_of_eq h1e))
  · exact Or.inr ⟨h2e.trans h1e, le_trans h1i h2i⟩

theorem fetchColdStart_le_48 (db : DB) (now : ℚ) :
    (fetchColdStart db now).length ≤ 48 := by
  rw [fetchColdStart, length_insSort, List.length_append, List.length_append,
    List.length_append]
  have l1 := length_coldCatTop db now "Πολιτική"
  have l2 := length_coldCatTop db now "Οικονομία"
  have l3 := length_coldCatTop db now "Αθλητικά"
  have l4 := length_coldCatTop db now "Gaming"
  omega

theorem countP_fetchColdStart_le_12 (db : DB) (now : ℚ) (c : String) :
    ((fetchColdStart db now).countP fun a => a.category == some c) ≤ 12 := by
  rw [fetchColdStart, countP_insSort, List.countP_append, List.countP_append,
    List.countP_append]
  by_cases hc1 : c = "Πολιτική"
  · subst hc1
    have g1 := countP_coldCatTop_self db now "Πολιτική"
    have g2 := countP_coldCatTop_ne db now (show "Οικονομία" ≠ "Πολιτική" by decide)
    have g3 := countP_coldCatTop_ne db now (show "Αθλητικά" ≠ "Πολιτική" by decide)
    have g4 := countP_coldCatTop_ne db now (show "Gaming" ≠ "Πολιτική" by decide)
    omega
  by_cases hc2 : c = "Οικονομία"
  · subst hc2
    have g1 := countP_coldCatTop_ne db now (show "Πολιτική" ≠ "Οικονομία" by decide)
    have g2 := countP_coldCatTop_self db now "Οικονομία"
    have g3 := countP_coldCatTop_ne db now (show "Αθλητικά" ≠ "Οικονομία" by decide)
    have g4 := countP_coldCatTop_ne db now (show "Gaming" ≠ "Οικονομία" by decide)
    omega
  by_cases hc3 : c = "Αθλητικά"
  · subst hc3
    have g1 := countP_coldCatTop_ne db now (show "Πολιτική" ≠ "Αθλητικά" by decide)
    have g2 := countP_coldCatTop_ne db now (show "Οικονομία" ≠ "Αθλητικά" by decide)
    have g3 := countP_coldCatTop_self db now "Αθλητικά"
    have g4 := countP_coldCatTop_ne db now (show "Gaming" ≠ "Αθλητικά" by decide)
    omega
  by_cases hc4 : c = "Gaming"
  · subst hc4
    have g1 := countP_coldCatTop_ne db now (show "Πολιτική" ≠ "Gaming" by decide)
    have g2 := countP_coldCatTop_ne db now (show "Οικονομία" ≠ "Gaming" by decide)
    have g3 := countP_coldCatTop_ne db now (show "Αθλητικά" ≠ "Gaming" by decide)
    have g4 := countP_coldCatTop_self db now "Gaming"
    omega
  · have g1 := countP_coldCatTop_ne db now fun hh => hc1 hh.symm
    have g2 := countP_coldCatTop_ne db now fun hh => hc2 hh.symm
    have g3 := countP_coldCatTop_ne db now fun hh => hc3 hh.symm
    have g4 := countP_coldCatTop_ne db now fun hh => hc4 hh.symm
    omega

theorem mem_fetchColdStart {db : DB} {now : ℚ} {a : Article}
    (h : a ∈ fetchColdStart db now) :
    (∃ c ∈ coldCats, a.category = some c) ∧
    ∃ t, a.published_at = some t ∧ now - sevenDays ≤ t := by
  have h1 := (mem_insSort coldLE a _).mp h
  have hcat : ∃ c ∈ coldCats, a.category = some c ∧ a ∈ coldRecent db now := by
    rcases List.mem_append.mp h1 with h2 | h2
    · rcases List.mem_append.mp h2 with h3 | h3
      · rcases List.mem_append.mp h3 with h4 | h4
        · exact ⟨"Πολιτική", by decide, (mem_coldCatTop h4).2, (mem_coldCatTop h4).1⟩
        · exact ⟨"Οικονομία", by decide, (mem_coldCatTop h4).2, (mem_coldCatTop h4).1⟩
      · exact ⟨"Αθλητικά", by decide, (mem_coldCatTop h3).2, (mem_coldCatTop h3).1⟩
    · exact ⟨"Gaming", by decide, (mem_coldCatTop h2).2, (mem_coldCatTop h2).1⟩
  rcases hcat with ⟨c, hc1, hc2, hc3⟩
  exact ⟨⟨c, hc1, hc2⟩, (mem_coldRecent hc3).2⟩

theorem pairwise_fetchColdStart (db : DB) (now : ℚ) :
    (fetchColdStart db now).Pairwise fun a b => pubTime b ≤ pubTime a := by
  refine (pairwise_insSort coldLE coldLE_total coldLE_trans _).imp ?_
  intro a b hab
  rw [coldLE, decide_eq_true_eq] at hab
  rcases hab with h | ⟨h, _⟩
  · exact le_of_lt h
  · exact le_of_eq h

/-- Claim C7: a feed request by a user with no profile embedding is
served in cold-start mode (mode flag `coldstart` in the response
metadata, distinguishable from the other modes), its items are the
cold-start sample — at most 12 articles per category, categories drawn
only from the fixed 4-category set, all published within the last 7
days, ordered by descending publish time — and the remote reranking
collaborator is never invoked on this path. -/
theorem coldstart_feed (env : FeedEnv) (userId k : Int) (now : ℚ)
    (h1 : 0 < userId) (hk : 1 ≤ k ∧ k ≤ 200)
    (hemb : hasUserEmbedding env.db userId.toNat = false)
    (hfresh : ∀ i ∈ env.db.impressions, i.request_id ≠ env.rid)
    (hnd : ((fetchColdStart env.db now).map fun a => a.id).Nodup) :
    (handleFeed env userId k now).status = 200 ∧
    (handleFeed env userId k now).mode = some "coldstart" ∧
    (handleFeed env userId k now).items = fetchColdStart env.db now ∧
    (handleFeed env userId k now).rankerCalled = false ∧
    (∀ c : String,
      ((fetchColdStart env.db now).countP fun a => a.category == some c) ≤ 12) ∧
    (∀ a ∈ fetchColdStart env.db now, ∃ c ∈ coldCats, a.category = some c) ∧
    (∀ a ∈ fetchColdStart env.db now,
      ∃ t, a.published_at = some t ∧ now - sevenDays ≤ t) ∧
    (fetchColdStart env.db now).Pairwise (fun a b => pubTime b ≤ pubTime a) := by
  rw [handleFeed_cold env userId k now h1 hk hemb,
    serveColdFeed_ok env userId.toNat "coldstart" "coldstart_balanced_v1" now
      hfresh hnd]
  refine ⟨rfl, rfl, rfl, rfl, countP_fetchColdStart_le_12 env.db now, ?_, ?_,
    pairwise_fetchColdStart env.db now⟩
  · intro a ha
    exact (mem_fetchColdStart ha).1
  · intro a ha
    exact (mem_fetchColdStart ha).2

/-- User with no profile embedding, for the cold-start witness. -/
def uCold : User := { id := 1, username := "u", embedding := none }

/-- A recent article in the Πολιτική category. -/
def artC1 : Article :=
  { id := 1, title := "t1", source := "s", category := some "Πολιτική",
    url := "http", published_at := some 95, embedding := none,
    image_url := none }

/-- A recent article in the Gaming category. -/
def artC2 : Article :=
  { id := 2, title := "t2", source := "s", category := some "Gaming",
    url := "http", published_at := some 90, embedding := none,
    image_url := none }

/-- Database for the cold-start scenario: user 1 has no embedding. -/
def dbCold : DB :=
  { articles := [artC1, artC2], users := [uCold], impressions := [],
    interactions := [], dist := fun _ _ => 0 }

/-- Environment of the cold-start scenario. -/
def envCold : FeedEnv :=
  { db := dbCold, rid := "req-000000000b", retrievalOk := true,
    rankResult := .ok [] }

unseal Rat.mul Rat.add Rat.sub Rat.inv in
/-- Claim C7, witness: the cold-start scenario at a concrete state. -/
theorem coldstart_feed_witness :
    (handleFeed envCold 1 50 100).status = 200 ∧
    (handleFeed envCold 1 50 100).mode = some "coldstart" ∧
    (handleFeed envCold 1 50 100).items = fetchColdStart dbCold 100 ∧
    (handleFeed envCold 1 50 100).rankerCalled = false ∧
    (fetchColdStart dbCold 100).Pairwise (fun a b => pubTime b ≤ pubTime a) := by
  have h := coldstart_feed envCold 1 50 100 (by decide) (by decide) (by decide)
    (by decide) (by decide)
  exact ⟨h.1, h.2.1, h.2.2.1, h.2.2.2.1, h.2.2.2.2.2.2.2⟩

/-- Claim C9 (amended): when the candidate query returns an empty
candidate set, the feed request serves the cold-start fallback (mode
`fallback_no_candidates`) instead of failing; when the candidate query
itself errors (embedding store unreachable), the request fails with the
generic 500 internal error and no fallback is attempted; and when the
remote scoring collaborator fails after a non-empty candidate set was
fetched, the request fails with a 500 and serves nothing rather than
the unranked candidates. -/
theorem unavailable_handling (env : FeedEnv) (userId k : Int) (now : ℚ)
    (h1 : 0 < userId) (hk : 1 ≤ k ∧ k ≤ 200)
    (hemb : hasUserEmbedding env.db userId.toNat = true) :
    (env.retrievalOk = false →
      handleFeed env userId k now = feedInternalError env.db false) ∧
    (env.retrievalOk = true →
      fetchCandidates env.db now userId.toNat = [] →
      (∀ i ∈ env.db.impressions, i.request_id ≠ env.rid) →
      ((fetchColdStart env.db now).map fun a => a.id).Nodup →
      (handleFeed env userId k now).status = 200 ∧
      (handleFeed env userId k now).mode = some "fallback_no_candidates" ∧
      (handleFeed env userId k now).items = fetchColdStart env.db now ∧
      (handleFeed env userId k now).rankerCalled = false) ∧
    (env.retrievalOk = true →
      fetchCandidates env.db now userId.toNat ≠ [] →
      env.rankResult = .error () →
      handleFeed env userId k now = feedInternalError env.db true) := by
  refine ⟨?_, ?_, ?_⟩
  · intro hro
    rw [handleFeed, if_neg (not_not_intro h1), if_neg (not_not_intro hk),
      if_neg (by simp [hemb]), if_pos hro]
  · intro hro hc hfresh hnd
    rw [handleFeed_fallback env userId k now h1 hk hemb hro hc,
      serveColdFeed_ok env userId.toNat "fallback_no_candidates"
        "fallback_no_candidates_v1" now hfresh hnd]
    exact ⟨rfl, rfl, rfl, rfl⟩
  · intro hro hc hrk
    rw [handleFeed, if_neg (not_not_intro h1), if_neg (not_not_intro hk),
      if_neg (by simp [hemb]), if_neg (by simp [hro]), if_neg hc, hrk]

/-- Database whose single user has an embedding but no articles. -/
def dbEmb : DB :=
  { articles := [], users := [{ id := 1, username := "u", embedding := some [1] }],
    impressions := [], interactions := [], dist := fun _ _ => 0 }

/-- Environment where the candidate query itself fails. -/
def envFail : FeedEnv :=
  { db := dbEmb, rid := "req-000000000c", retrievalOk := false,
    rankResult := .ok [] }

unseal Rat.mul Rat.add Rat.sub Rat.inv in
/-- Claim C9, counterexample: when candidate retrieval itself fails,
the request returns the generic 500 internal error with no items and no
mode flag — the cold-start fallback path is not attempted. -/
theorem unavailable_handling_cex :
    handleFeed envFail 1 50 0 =
      { status := 500, request_id := none, mode := none, items := [],
        rankerCalled := false, impressions := [] } ∧
    (handleFeed envFail 1 50 0).mode ≠ some "coldstart" ∧
    (handleFeed envFail 1 50 0).mode ≠ some "fallback_no_candidates" := by
  decide

/-- Environment where scoring fails after candidates were fetched. -/
def envRankFail : FeedEnv :=
  { db := db1c, rid := "req-000000000d", retrievalOk := true,
    rankResult := .error () }

unseal Rat.mul Rat.add Rat.sub Rat.inv in
/-- Claim C9, witness: a failing candidate query yields the generic
internal error, and a failing scoring collaborator after a non-empty
candidate fetch also yields the internal error with no items served. -/
theorem unavailable_handling_witness :
    handleFeed envFail 1 50 0 = feedInternalError dbEmb false ∧
    handleFeed envRankFail 1 50 100 = feedInternalError db1c true := by
  refine ⟨(unavailable_handling envFail 1 50 0 (by decide) (by decide)
    (by decide)).1 rfl, ?_⟩
  exact (unavailable_handling envRankFail 1 50 100 (by decide) (by decide)
    (by decide)).2.2 rfl (by decide) rfl

/-- Claim C10: on the cold-start and fallback-no-candidates paths the
requested result size k does not bound the output: the whole response
is independent of k (the argument passed at the fallback call site is
ignored), the cold-start sample holds at most 48 items (12 per each of
the 4 fixed categories), and a successful response on these paths
serves exactly the cold-start sample whatever k was. -/
theorem cold_paths_ignore_k (env : FeedEnv) (userId k1 k2 : Int) (now : ℚ)
    (h1 : 0 < userId) (hk1 : 1 ≤ k1 ∧ k1 ≤ 200) (hk2 : 1 ≤ k2 ∧ k2 ≤ 200)
    (hpath : hasUserEmbedding env.db userId.toNat = false ∨
      (env.retrievalOk = true ∧ fetchCandidates env.db now userId.toNat = [])) :
    handleFeed env userId k1 now = handleFeed env userId k2 now ∧
    (fetchColdStart env.db now).length ≤ 48 ∧
    ((handleFeed env userId k1 now).status = 200 →
      (handleFeed env userId k1 now).items = fetchColdStart env.db now) := by
  have heq : handleFeed env userId k1 now = handleFeed env userId k2 now ∧
      ∃ mode mv, handleFeed env userId k1 now =
        serveColdFeed env userId.toNat mode mv now := by
    rcases hpath with hemb | ⟨hro, hc⟩
    · rw [handleFeed_cold env userId k1 now h1 hk1 hemb,
        handleFeed_cold env userId k2 now h1 hk2 hemb]
      exact ⟨rfl, "coldstart", "coldstart_balanced_v1", rfl⟩
    · cases hB : hasUserEmbedding env.db userId.toNat with
      | false =>
        rw [handleFeed_cold env userId k1 now h1 hk1 hB,
          handleFeed_cold env userId k2 now h1 hk2 hB]
        exact ⟨rfl, "coldstart", "coldstart_balanced_v1", rfl⟩
      | true =>
        rw [handleFeed_fallback env userId k1 now h1 hk1 hB hro hc,
          handleFeed_fallback env userId k2 now h1 hk2 hB hro hc]
        exact ⟨rfl, "fallback_no_candidates", "fallback_no_candidates_v1", rfl⟩
  refine ⟨heq.1, fetchColdStart_le_48 env.db now, ?_⟩
  rcases heq.2 with ⟨mode, mv, hserve⟩
  rw [hserve]
  exact serveColdFeed_items env userId.toNat mode mv now

unseal Rat.mul Rat.add Rat.sub Rat.inv in
/-- Claim C10, witness: with k = 1 the cold-start response still holds
2 items — the requested size of the caller does not bound the output, and
the response equals the k = 200 response. -/
theorem cold_paths_ignore_k_witness :
    handleFeed envCold 1 1 100 = handleFeed envCold 1 200 100 ∧
    (fetchColdStart dbCold 100).length ≤ 48 ∧
    ((handleFeed envCold 1 1 100).status = 200 →
      (handleFeed envCold 1 1 100).items = fetchColdStart dbCold 100) ∧
    (handleFeed envCold 1 1 100).items.length = 2 := by
  have h := cold_paths_ignore_k envCold 1 1 200 100 (by decide) (by decide)
    (by decide) (Or.inl (by decide))
  exact ⟨h.1, h.2.1, h.2.2, by decide⟩
